import Mathlib

/-!
Shallow embedding of `pkg/controller/statefulset/stateful_set_control.go`
(the StatefulSet reconciliation core) and proofs about it.

The file embeds the single source file of the repository:
the reconciliation driver `updateStatefulSet`, the revision manager
`getStatefulSetRevisions`, the history truncator `truncateHistory`, and the
outer loop `UpdateStatefulSet`.  Helper predicates that live in files not
part of the repository snapshot (pod classification, the replica
materializer, revision equality and sorting, status finalization) are
modelled from the specification and are marked as such in their doc
comments.

Side effects are made explicit: every call into the platform interfaces
(`StatefulPodControlInterface`, the revision store, the event recorder) is
recorded as an `Action`; fallibility of platform calls is modelled by an
error oracle `failAt : Nat → Bool` indexed by the number of fallible calls
issued so far.
-/

namespace StatefulSetControl

/-- Pod lifecycle phase; `empty` models the zero value `""` of
`pod.Status.Phase`, i.e. a pod descriptor that has no platform-side
existence yet. -/
inductive PodPhase
  | pending
  | running
  | succeeded
  | failed
  | unknown
  | empty
deriving DecidableEq, Repr

/-- Observed replica (pod).  `ordinal` is the integer suffix of the pod
name (`getOrdinal`), `revision` the controller-revision-hash label
(`getPodRevision`), `deletionTimestamp` whether the deletion timestamp is
set.  `identMatch` and `storMatch` abstract the results of
`identityMatches(set, pod)` and `storageMatches(set, pod)`. -/
structure Pod where
  ordinal : Int
  revision : String
  phase : PodPhase
  ready : Bool
  deletionTimestamp : Bool
  identMatch : Bool
  storMatch : Bool
deriving DecidableEq, Repr

/-- Reconcile status, mirroring `apps.StatefulSetStatus` restricted to the
fields the source manipulates. -/
structure StatefulSetStatus where
  observedGeneration : Int
  replicas : Int
  readyReplicas : Int
  currentReplicas : Int
  updatedReplicas : Int
  currentRevision : String
  updateRevision : String
  collisionCount : Int
deriving DecidableEq, Repr

/-- `set.Spec.UpdateStrategy.Type`. -/
inductive UpdateStrategyType
  | rollingUpdate
  | onDelete
deriving DecidableEq, Repr

/-- The StatefulSet input, restricted to the fields the source reads.
`rollingUpdatePartition` models `set.Spec.UpdateStrategy.RollingUpdate`
(`none` when the pointer is nil, otherwise the partition).
`template` is the abstract replica template content (what the revision
records encode).  `statusCurrentRevision`, `statusCollisionCount` and
`statusPrev` are the set's last-published status fields the source
reads. -/
structure StatefulSet where
  replicas : Nat
  strategyType : UpdateStrategyType
  rollingUpdatePartition : Option Nat
  revisionHistoryLimit : Nat
  deletionTimestamp : Bool
  generation : Int
  template : String
  statusCurrentRevision : String
  statusCollisionCount : Option Int
  statusPrev : StatefulSetStatus
deriving DecidableEq, Repr

/-- `apps.ControllerRevision` restricted to the fields the source reads:
the name, the `Revision` integer, and the encoded template data. -/
structure ControllerRevision where
  name : String
  revision : Int
  template : String
deriving DecidableEq, Repr

/-- Modelled from the spec: "created: replica exists on the platform";
in the source `isCreated` tests `pod.Status.Phase != ""`. -/
def isCreated (p : Pod) : Bool := p.phase != PodPhase.empty

/-- Modelled from the spec: "terminating: created ∧ deletion timestamp
set". -/
def isTerminating (p : Pod) : Bool := isCreated p && p.deletionTimestamp

/-- Modelled from the spec: "running-and-ready: phase = Running ∧
ready". -/
def isRunningAndReady (p : Pod) : Bool := p.phase == PodPhase.running && p.ready

/-- Modelled from the spec: "healthy: running-and-ready ∧
¬terminating". -/
def isHealthy (p : Pod) : Bool := isRunningAndReady p && !(isTerminating p)

/-- Modelled from the spec: "failed: phase = Failed". -/
def isFailed (p : Pod) : Bool := p.phase == PodPhase.failed

/-- Modelled from the spec: the revision tag of a replica, set at creation
and never mutated. -/
def getPodRevision (p : Pod) : String := p.revision

/-- Modelled from the spec: the ordinal extracted from the replica's
name. -/
def getOrdinal (p : Pod) : Int := p.ordinal

/-- Modelled from the spec: identity bindings are a pure function of
(set, ordinal); abstracted as a field of the observed replica. -/
def identityMatches (p : Pod) : Bool := p.identMatch

/-- Modelled from the spec: storage bindings are a pure function of
(set, ordinal); abstracted as a field of the observed replica. -/
def storageMatches (p : Pod) : Bool := p.storMatch

/-- The effective minimum ordinal for destructive updates: 0, or the
partition when `set.Spec.UpdateStrategy.RollingUpdate` is non-nil
(source lines 419-422). -/
def effectivePartition (set : StatefulSet) : Nat :=
  match set.rollingUpdatePartition with
  | some p => p
  | none => 0

/-- Modelled from the spec: the replica materializer
(`newVersionedStatefulSetPod`).  Ordinals below the partition receive the
current revision's template and tag, the others the update revision's; the
produced descriptor has no platform-side existence yet (phase empty), is
not terminating, and has consistent identity and storage bindings. -/
def newVersionedStatefulSetPod (part : Nat) (curName updName : String)
    (ordinal : Int) : Pod :=
  if ordinal < (part : Int) then
    { ordinal := ordinal, revision := curName, phase := PodPhase.empty,
      ready := false, deletionTimestamp := false,
      identMatch := true, storMatch := true }
  else
    { ordinal := ordinal, revision := updName, phase := PodPhase.empty,
      ready := false, deletionTimestamp := false,
      identMatch := true, storMatch := true }

/-- One platform action issued by the driver.  The three
`DeleteStatefulPod` call sites are distinguished by constructor
(failed-pod repair, scale down, delete-for-update); `event` records a call
to the event recorder. -/
inductive Action
  | event (reason : String) (ordinal : Int)
  | deleteFailedPod (ordinal : Int) (revision : String)
  | createPod (ordinal : Int) (revision : String)
  | updatePod (ordinal : Int)
  | deleteScaleDown (ordinal : Int) (revision : String)
  | deleteForUpdate (ordinal : Int) (revision : String)
deriving DecidableEq, Repr

/-- Running state of one driver pass: the status being assembled, the
platform actions issued so far, the number of fallible platform calls
issued, and whether the last call failed (aborting the pass). -/
structure Step where
  status : StatefulSetStatus
  actions : List Action
  calls : Nat
  err : Bool
deriving DecidableEq, Repr

/-- Record an event (the event recorder does not fail). -/
def addAction (s : Step) (a : Action) : Step :=
  { s with actions := s.actions ++ [a] }

/-- Issue a fallible platform call: the call is recorded, the call counter
advances, and the error oracle decides whether it failed. -/
def call (failAt : Nat → Bool) (s : Step) (a : Action) : Step :=
  { s with
    actions := s.actions ++ [a]
    calls := s.calls + 1
    err := failAt s.calls }

/-- Decrement the per-revision counters for a deleted pod
(source lines 338-343 and 405-410). -/
def decRevCounters (curName updName : String) (p : Pod)
    (st : StatefulSetStatus) : StatefulSetStatus :=
  let st := if getPodRevision p = curName then
      { st with currentReplicas := st.currentReplicas - 1 } else st
  if getPodRevision p = updName then
    { st with updatedReplicas := st.updatedReplicas - 1 } else st

/-- Increment the per-revision counters for a created pod
(source lines 358-363). -/
def incRevCounters (curName updName : String) (p : Pod)
    (st : StatefulSetStatus) : StatefulSetStatus :=
  let st := if getPodRevision p = curName then
      { st with currentReplicas := st.currentReplicas + 1 } else st
  if getPodRevision p = updName then
    { st with updatedReplicas := st.updatedReplicas + 1 } else st

/-- The status-gathering loop over the observed pods
(source lines 279-301): counts total, ready, current and updated
replicas and collects the unhealthy pods in input order. -/
def gatherPodStatus (curName updName : String) :
    List Pod → StatefulSetStatus → List Pod → StatefulSetStatus × List Pod
  | [], st, unhealthy => (st, unhealthy)
  | p :: rest, st, unhealthy =>
    let st := { st with replicas := st.replicas + 1 }
    let st := if isRunningAndReady p then
        { st with readyReplicas := st.readyReplicas + 1 } else st
    let st := if isCreated p ∧ ¬ isTerminating p then
        let st := if getPodRevision p = curName then
            { st with currentReplicas := st.currentReplicas + 1 } else st
        if getPodRevision p = updName then
          { st with updatedReplicas := st.updatedReplicas + 1 } else st
      else st
    let unhealthy := if ¬ isHealthy p then unhealthy ++ [p] else unhealthy
    gatherPodStatus curName updName rest st unhealthy

/-- The failed-pod repair step of Phase 2 (source lines 329-351): for a
pod in Failed phase, record the warning event, issue the delete, and on
success decrement the per-revision counters and the total and rebind the
local descriptor to a freshly materialized replica at the same ordinal;
any other pod passes through unchanged. -/
def handleFailedPod (failAt : Nat → Bool) (part : Nat)
    (curName updName : String) (pod : Pod) (s : Step) : Pod × Step :=
  if isFailed pod then
    let s := addAction s (Action.event "RecreatingFailedPod" (getOrdinal pod))
    let s := call failAt s (Action.deleteFailedPod (getOrdinal pod) (getPodRevision pod))
    if s.err then (pod, s)
    else
      let st := decRevCounters curName updName pod s.status
      let st := { st with replicas := st.replicas - 1 }
      (newVersionedStatefulSetPod part curName updName (getOrdinal pod),
       { s with status := st })
  else (pod, s)

/-- Phase 2 of the driver (source lines 327-377): walk the unhealthy list;
delete-and-rebind failed pods, create pods that do not exist, enforce
identity and storage invariants on the rest. -/
def processUnhealthy (failAt : Nat → Bool) (part : Nat)
    (curName updName : String) : List Pod → Step → Step
  | [], s => s
  | pod :: rest, s =>
    let fs : Pod × Step := handleFailedPod failAt part curName updName pod s
    let pod := fs.1
    let s := fs.2
    if s.err then s
    else if ¬ isCreated pod then
      let s := call failAt s (Action.createPod (getOrdinal pod) (getPodRevision pod))
      if s.err then s
      else
        let st := { s.status with replicas := s.status.replicas + 1 }
        let st := incRevCounters curName updName pod st
        processUnhealthy failAt part curName updName rest { s with status := st }
    else if identityMatches pod ∧ storageMatches pod then
      processUnhealthy failAt part curName updName rest s
    else
      let s := call failAt s (Action.updatePod (getOrdinal pod))
      if s.err then s
      else processUnhealthy failAt part curName updName rest s

/-- Phase 3 descending loop (source lines 385-411).  `t` is one more than
the index examined next, so the first index processed is
`pods.length - 1`; `need` is the remaining `needToDelete`, decremented on
every iteration whether or not a delete is issued. -/
def scaleDownAux (failAt : Nat → Bool) (curName updName : String)
    (pods : List Pod) : Nat → Int → Step → Step
  | 0, _, s => s
  | t + 1, need, s =>
    if need ≤ 0 then s
    else
      match pods[t]? with
      | none => s
      | some pod =>
        let need := need - 1
        if isTerminating pod then scaleDownAux failAt curName updName pods t need s
        else
          let s := call failAt s (Action.deleteScaleDown (getOrdinal pod) (getPodRevision pod))
          if s.err then s
          else
            let s := { s with status := decRevCounters curName updName pod s.status }
            scaleDownAux failAt curName updName pods t need s

/-- Phase 3 of the driver (source line 384): scale down the excess
replicas, `needToDelete = len(pods) - int(*set.Spec.Replicas)`. -/
def scaleDown (failAt : Nat → Bool) (curName updName : String)
    (replicas : Nat) (pods : List Pod) (s : Step) : Step :=
  scaleDownAux failAt curName updName pods pods.length
    ((pods.length : Int) - (replicas : Int)) s

/-- Phase 5 descending loop (source lines 425-438).  `t` is one more than
the index examined next; the loop stops below `updateMin`.  For each pod
that does not match the update revision and is not terminating, the
current-replicas counter is decremented and then the delete is issued. -/
def rollingUpdateAux (failAt : Nat → Bool) (updName : String)
    (updateMin : Nat) (pods : List Pod) : Nat → Step → Step
  | 0, s => s
  | t + 1, s =>
    if t < updateMin then s
    else
      match pods[t]? with
      | none => s
      | some pod =>
        if getPodRevision pod ≠ updName ∧ ¬ isTerminating pod then
          let s := { s with status :=
            { s.status with currentReplicas := s.status.currentReplicas - 1 } }
          let s := call failAt s (Action.deleteForUpdate (getOrdinal pod) (getPodRevision pod))
          if s.err then s
          else rollingUpdateAux failAt updName updateMin pods t s
        else rollingUpdateAux failAt updName updateMin pods t s

/-- The status constructed at the start of a pass
(source lines 269-274). -/
def initialStatus (set : StatefulSet) (curName updName : String)
    (collisionCount : Int) : StatefulSetStatus :=
  { observedGeneration := set.generation, replicas := 0, readyReplicas := 0,
    currentReplicas := 0, updatedReplicas := 0,
    currentRevision := curName, updateRevision := updName,
    collisionCount := collisionCount }

/-- The reconciliation driver, embedding `updateStatefulSet`
(source lines 252-441): gather status and the unhealthy list, append a
synthetic placeholder per missing ordinal — the source passes
`int(status.ObservedGeneration)` as the materializer ordinal
(source lines 303-311) — short-circuit on set deletion, repair unhealthy
pods, scale down, short-circuit for the OnDelete strategy, and run the
rolling update above the partition. -/
def updateStatefulSet (failAt : Nat → Bool) (set : StatefulSet)
    (currentRevision updateRevision : ControllerRevision)
    (collisionCount : Int) (pods : List Pod) : Step :=
  let part := effectivePartition set
  let status := initialStatus set currentRevision.name updateRevision.name collisionCount
  let gathered := gatherPodStatus currentRevision.name updateRevision.name pods status []
  let status := gathered.1
  let unhealthy := gathered.2 ++
    (List.range (set.replicas - pods.length)).map
      (fun _ => newVersionedStatefulSetPod part currentRevision.name
        updateRevision.name status.observedGeneration)
  let s : Step := { status := status, actions := [], calls := 0, err := false }
  if set.deletionTimestamp then s
  else
    let s := processUnhealthy failAt part currentRevision.name updateRevision.name unhealthy s
    if s.err then s
    else
      let s := scaleDown failAt currentRevision.name updateRevision.name set.replicas pods s
      if s.err then s
      else if set.strategyType = UpdateStrategyType.onDelete then s
      else
        rollingUpdateAux failAt updateRevision.name (effectivePartition set)
          pods pods.length s

/-- The error oracle under which every platform call succeeds. -/
def noFail : Nat → Bool := fun _ => false

/-- Ordering on revision records used by `SortControllerRevisions`:
ascending `Revision`. -/
def revisionLE (a b : ControllerRevision) : Prop := a.revision ≤ b.revision

instance : DecidableRel revisionLE :=
  fun a b => inferInstanceAs (Decidable (a.revision ≤ b.revision))

/-- Modelled from the spec: the revision list is manipulated in ascending
Revision order (`history.SortControllerRevisions`). -/
def sortControllerRevisions (l : List ControllerRevision) : List ControllerRevision :=
  List.insertionSort revisionLE l

/-- Modelled from the spec: two revisions are equivalent when their
templates are structurally equal regardless of Revision or name
(`history.EqualRevision`). -/
def EqualRevision (a b : ControllerRevision) : Bool := a.template == b.template

/-- Modelled from the spec: the revisions equivalent to the candidate, in
list order (`history.FindEqualRevisions`). -/
def FindEqualRevisions (revisions : List ControllerRevision)
    (needle : ControllerRevision) : List ControllerRevision :=
  revisions.filter (fun r => EqualRevision r needle)

/-- Modelled from the spec: the candidate Revision is one more than the
greatest existing Revision, and 1 when the history is empty; expects a
sorted list (`nextRevision`). -/
def nextRevision (revisions : List ControllerRevision) : Int :=
  match revisions.getLast? with
  | none => 1
  | some r => r.revision + 1

/-- Modelled from the spec: builds the candidate revision capturing the
set's current template, with a name derived from the template content and
the collision count (the content hash and set name are not modelled
further) (`newRevision`). -/
def newRevision (set : StatefulSet) (revision : Int) (collisionCount : Int) :
    ControllerRevision :=
  { name := String.append (String.append set.template "-") (toString collisionCount),
    revision := revision, template := set.template }

/-- A revision-store mutation issued by the revision manager. -/
inductive RevisionOp
  | update (name : String) (newRevisionNumber : Int)
  | create (rev : ControllerRevision)
deriving DecidableEq, Repr

/-- The update-revision decision once both checked lookups succeeded
(source lines 207-218): when the equivalent revision with the greatest
Revision is the last entry the update revision is unchanged and reused;
otherwise this is a rollback and that equivalent entry's Revision is
bumped to the candidate's through the store. -/
def pickUpdateRevision (cand lastRev lastEqual : ControllerRevision) :
    ControllerRevision × List RevisionOp :=
  if EqualRevision lastRev lastEqual then (lastRev, [])
  else ({ lastEqual with revision := cand.revision },
        [RevisionOp.update lastEqual.name cand.revision])

/-- The current-revision selection (source lines 228-238): the revision
whose name the set's status records, or the update revision when none is
found. -/
def currentFromFound (found : Option ControllerRevision)
    (upd : ControllerRevision) : ControllerRevision :=
  match found with
  | some c => c
  | none => upd

/-- Result of `getStatefulSetRevisions`: the current and update revisions,
the collision count, and the store mutations issued. -/
structure RevisionsResult where
  current : ControllerRevision
  update : ControllerRevision
  collisionCount : Int
  ops : List RevisionOp
deriving DecidableEq, Repr

/-- The revision manager, embedding `getStatefulSetRevisions`
(source lines 182-241).  The indexing `revisions[revisionCount-1]` (and
`equalRevisions[equalCount-1]`) is modelled with checked lookups; `none`
models the out-of-bounds panic the Go code would raise.  The store's
`UpdateControllerRevision` and `CreateControllerRevision` are modelled as
always succeeding and recorded as `RevisionOp`s; the collision-count retry
inside create is not exercised by any claim and the count is returned
unchanged. -/
def getStatefulSetRevisions (set : StatefulSet)
    (revisions : List ControllerRevision) : Option RevisionsResult :=
  let revisionCount := revisions.length
  let revisions := sortControllerRevisions revisions
  let collisionCount := set.statusCollisionCount.getD 0
  let updateRevision := newRevision set (nextRevision revisions) collisionCount
  let equalRevisions := FindEqualRevisions revisions updateRevision
  let equalCount := equalRevisions.length
  let chosen : Option (ControllerRevision × List RevisionOp) :=
    if equalCount > 0 then
      match revisions[revisionCount - 1]?, equalRevisions[equalCount - 1]? with
      | some lastRev, some lastEqual =>
        some (pickUpdateRevision updateRevision lastRev lastEqual)
      | _, _ => none
    else
      some (updateRevision, [RevisionOp.create updateRevision])
  match chosen with
  | none => none
  | some p =>
    let found := revisions.find? (fun r => r.name == set.statusCurrentRevision)
    some { current := currentFromFound found p.1, update := p.1,
           collisionCount := collisionCount, ops := p.2 }

/-- The history truncator, embedding `truncateHistory`
(source lines 143-174): collect the revisions not marked live by the
current and update markers or any observed pod's revision tag, and when
they outnumber the history limit delete the prefix (the lowest-Revision
records) down to the limit.  The returned list is the sequence of
`DeleteControllerRevision` calls in issue order. -/
def truncateHistory (set : StatefulSet) (pods : List Pod)
    (revisions : List ControllerRevision)
    (current upd : ControllerRevision) : List ControllerRevision :=
  let live : String → Bool := fun name =>
    name == current.name || name == upd.name ||
      pods.any (fun p => getPodRevision p == name)
  let history := revisions.filter (fun r => !(live r.name))
  let historyLen := history.length
  let historyLimit := set.revisionHistoryLimit
  if historyLen ≤ historyLimit then []
  else history.take (historyLen - historyLimit)

/-- Modelled from the spec: `completeRollingUpdate` — when the strategy is
rolling with partition zero and all replicas are updated and ready, the
current revision and the current-replicas counter advance to the update
revision's. -/
def completeRollingUpdate (set : StatefulSet) (status : StatefulSetStatus) :
    StatefulSetStatus :=
  if set.strategyType = UpdateStrategyType.rollingUpdate ∧
      effectivePartition set = 0 ∧
      status.replicas = (set.replicas : Int) ∧
      status.updatedReplicas = (set.replicas : Int) ∧
      status.readyReplicas = (set.replicas : Int) ∧
      status.currentRevision ≠ status.updateRevision then
    { status with currentRevision := status.updateRevision,
                  currentReplicas := status.updatedReplicas }
  else status

/-- Modelled from the spec: `inconsistentStatus` — field-wise drift
detection against the set's last-published status; equivalent statuses
skip the write. -/
def inconsistentStatus (set : StatefulSet) (status : StatefulSetStatus) : Bool :=
  status != set.statusPrev

/-- The status finalizer and publisher, embedding
`updateStatefulSetStatus` (source lines 446-465): complete any in-progress
rolling update, skip the write when the status is consistent; `some`
is the status handed to the status writer. -/
def updateStatefulSetStatus (set : StatefulSet) (status : StatefulSetStatus) :
    Option StatefulSetStatus :=
  let status := completeRollingUpdate set status
  if inconsistentStatus set status then some status else none

/-- Result of one whole reconcile: the revision-store mutations, the
driver's final state when it ran, the published status when one was
written, the revisions deleted by history truncation, and whether the
pass surfaced an error. -/
structure ReconcileResult where
  revisionOps : List RevisionOp
  driver : Option Step
  published : Option StatefulSetStatus
  truncated : List ControllerRevision
  err : Bool
deriving DecidableEq, Repr

/-- The outer reconcile, embedding `UpdateStatefulSet`
(source lines 72-115): sort the revisions, compute current and update
revisions, run the driver, and — only when the driver returned no error —
publish the status and truncate history.  The status writer and the
revision-delete calls are modelled as succeeding. -/
def UpdateStatefulSet (failAt : Nat → Bool) (set : StatefulSet)
    (revisions : List ControllerRevision) (pods : List Pod) : ReconcileResult :=
  let revisions := sortControllerRevisions revisions
  match getStatefulSetRevisions set revisions with
  | none =>
    { revisionOps := [], driver := none, published := none,
      truncated := [], err := true }
  | some rr =>
    let d := updateStatefulSet failAt set rr.current rr.update rr.collisionCount pods
    if d.err then
      { revisionOps := rr.ops, driver := some d, published := none,
        truncated := [], err := true }
    else
      { revisionOps := rr.ops, driver := some d,
        published := updateStatefulSetStatus set d.status,
        truncated := truncateHistory set pods revisions rr.current rr.update,
        err := false }

/-! Concrete inputs for the end-to-end scenarios of the specification. -/

/-- An all-zero previously-published status. -/
def emptyStatus : StatefulSetStatus :=
  { observedGeneration := 0, replicas := 0, readyReplicas := 0,
    currentReplicas := 0, updatedReplicas := 0,
    currentRevision := "", updateRevision := "", collisionCount := 0 }

/-- A healthy (running, ready, not terminating) pod at the given ordinal
and revision. -/
def healthyPod (o : Int) (rev : String) : Pod :=
  { ordinal := o, revision := rev, phase := PodPhase.running, ready := true,
    deletionTimestamp := false, identMatch := true, storMatch := true }

/-- A rolling-update set with `n` desired replicas and the given
partition, current revision name `R1`, template `A`, generation 7. -/
def mkSet (n : Nat) (part : Option Nat) : StatefulSet :=
  { replicas := n, strategyType := UpdateStrategyType.rollingUpdate,
    rollingUpdatePartition := part, revisionHistoryLimit := 10,
    deletionTimestamp := false, generation := 7, template := "A",
    statusCurrentRevision := "R1", statusCollisionCount := some 0,
    statusPrev := emptyStatus }

/-- Revision record R1 over template `A`. -/
def revR1 : ControllerRevision := { name := "R1", revision := 1, template := "A" }

/-- Revision record R2 over template `B`. -/
def revR2 : ControllerRevision := { name := "R2", revision := 2, template := "B" }

/-- Scenario S3 observed pods: ordinals 0, 1, 2, all healthy at R1. -/
def s3pods : List Pod := [healthyPod 0 "R1", healthyPod 1 "R1", healthyPod 2 "R1"]

/-- Scenario S6 observed pod: a single replica at ordinal 1 in Failed
phase, at revision R1. -/
def failedPod1 : Pod :=
  { ordinal := 1, revision := "R1", phase := PodPhase.failed, ready := false,
    deletionTimestamp := false, identMatch := true, storMatch := true }

/-- The error oracle that fails the platform call with index 1 (the second
fallible call of a pass). -/
def failSecondCall : Nat → Bool := fun k => k == 1

/-- Holds for every action except a delete-for-update; used to state that
the repair and scale-down phases never issue Phase-5 deletions. -/
def notDelUpd (a : Action) : Prop :=
  match a with
  | Action.deleteForUpdate _ _ => False
  | _ => True

instance (a : Action) : Decidable (notDelUpd a) := by
  unfold notDelUpd
  cases a <;> infer_instance

/-- The non-live revisions of a pass, in list order: the revisions named
neither by the current or update marker nor by any observed pod's
revision tag (the `history` slice of `truncateHistory`). -/
def nonLiveRevisions (pods : List Pod) (revisions : List ControllerRevision)
    (current upd : ControllerRevision) : List ControllerRevision :=
  revisions.filter (fun r =>
    !(r.name == current.name || r.name == upd.name ||
      pods.any (fun p => getPodRevision p == r.name)))

/-- Revision record R3 over template `C`. -/
def revR3 : ControllerRevision := { name := "R3", revision := 3, template := "C" }

/-- A set whose revision history limit is 1, for exercising history
truncation. -/
def c7set : StatefulSet :=
  { mkSet 3 (some 0) with revisionHistoryLimit := 1 }

/-- A running, ready pod at ordinal 5 whose revision tag `R0` matches
neither a current nor an update revision name used alongside it. -/
def c10pod : Pod :=
  { ordinal := 5, revision := "R0", phase := PodPhase.running, ready := true,
    deletionTimestamp := false, identMatch := true, storMatch := true }

/-- A driver state with all counters zero and no actions issued. -/
def c10step : Step :=
  { status := emptyStatus, actions := [], calls := 0, err := false }

/-- Two healthy pods at ordinals 0 and 1, both at revision R1. -/
def pods01 : List Pod := [healthyPod 0 "R1", healthyPod 1 "R1"]

/-! Theorems. -/

/-- C1: in scenario S3 (N = 3, partition 0, observed pods at ordinals
0, 1, 2 all at revision R1, update revision R2) the rolling-update phase
does NOT stop after one termination: the pass issues a delete-for-update
for ordinals 2, 1 and 0, because the Phase-5 loop has no early return
after a successful delete, contradicting the source's own comment "we
terminate the Pod with the largest ordinal that does not match the update
revision" and the one-at-a-time semantics the claim states.  This theorem
evaluates the embedded code at the failing input. -/
theorem s3_rolling_update_deletes_every_stale_pod :
    (updateStatefulSet noFail (mkSet 3 (some 0)) revR1 revR2 0 s3pods).actions =
      [Action.deleteForUpdate 2 "R1", Action.deleteForUpdate 1 "R1",
       Action.deleteForUpdate 0 "R1"] ∧
    (updateStatefulSet noFail (mkSet 3 (some 0)) revR1 revR2 0 s3pods).status.updateRevision
      = "R2" := by
  constructor <;> rfl

/-- C2 counterexample: in scenario S2 (N = 2, three healthy replicas at
R1 observed, current = update = R1) the single scale-down delete at
ordinal 2 is issued, but the status's total `Replicas` field is NOT
decremented to 2: the scale-down loop decrements only the per-revision
counters, so `Replicas` stays 3. -/
theorem s2_scale_down_total_not_decremented :
    (updateStatefulSet noFail (mkSet 2 (some 0)) revR1 revR1 0 s3pods).actions =
      [Action.deleteScaleDown 2 "R1"] ∧
    ¬ (updateStatefulSet noFail (mkSet 2 (some 0)) revR1 revR1 0 s3pods).status.replicas
      = 2 := by
  constructor
  · rfl
  · decide

/-- C2 amended: during scale-down each issued delete decrements the
per-revision status counters (`CurrentReplicas`, `UpdatedReplicas`) but
not the total: in scenario S2 the pass issues exactly one delete at
ordinal 2, `Replicas` remains 3, and the current and updated counters go
from 3 to 2. -/
theorem s2_scale_down_decrements_revision_counters_only :
    (updateStatefulSet noFail (mkSet 2 (some 0)) revR1 revR1 0 s3pods).actions =
      [Action.deleteScaleDown 2 "R1"] ∧
    (updateStatefulSet noFail (mkSet 2 (some 0)) revR1 revR1 0 s3pods).status.replicas = 3 ∧
    (updateStatefulSet noFail (mkSet 2 (some 0)) revR1 revR1 0 s3pods).status.currentReplicas = 2 ∧
    (updateStatefulSet noFail (mkSet 2 (some 0)) revR1 revR1 0 s3pods).status.updatedReplicas = 2 := by
  refine ⟨rfl, ?_, ?_, ?_⟩ <;> decide

/-- C3 counterexample: for a single observed replica in Failed phase at
ordinal 1 (N = 1, current = update = R1), the same pass DOES issue a
create for the replacement: after the delete the loop rebinds the local
descriptor to a fresh, not-yet-created replica and immediately falls into
the creation branch. -/
theorem s6_failed_pod_replacement_created_same_pass :
    Action.createPod 1 "R1" ∈
      (updateStatefulSet noFail (mkSet 1 (some 0)) revR1 revR1 0 [failedPod1]).actions := by
  decide

/-- C3 amended: for a single observed replica in Failed phase at
ordinal 1, the pass emits the "RecreatingFailedPod" event, issues the
delete for that replica, and then also issues the create of the
replacement in the same pass; the status counters for that revision are
decremented at the delete and re-incremented at the create. -/
theorem s6_failed_pod_delete_event_and_recreate :
    (updateStatefulSet noFail (mkSet 1 (some 0)) revR1 revR1 0 [failedPod1]).actions =
      [Action.event "RecreatingFailedPod" 1, Action.deleteFailedPod 1 "R1",
       Action.createPod 1 "R1"] ∧
    (updateStatefulSet noFail (mkSet 1 (some 0)) revR1 revR1 0 [failedPod1]).status.replicas = 1 ∧
    (updateStatefulSet noFail (mkSet 1 (some 0)) revR1 revR1 0 [failedPod1]).status.currentReplicas = 1 := by
  refine ⟨rfl, ?_, ?_⟩ <;> decide

/-- C5: the classifier does NOT hand the materializer the true missing
ordinal: for every missing ordinal the source passes
`int(status.ObservedGeneration)` instead, so with N = 2, no observed
pods, and generation 7, both placeholders are materialized (and created)
at ordinal 7 instead of 0 and 1 — exactly the defect the source's own
TODO comment flags.  This theorem evaluates the embedded code at the
failing input. -/
theorem placeholders_use_observed_generation_as_ordinal :
    (updateStatefulSet noFail (mkSet 2 (some 0)) revR1 revR1 0 []).actions =
      [Action.createPod 7 "R1", Action.createPod 7 "R1"] := by
  rfl

/-- C4 counterexample: with N = 1, three healthy replicas at R1 observed,
revisions [R1], and the second platform call failing, the first scale-down
delete succeeds and its status mutation is recorded
(`CurrentReplicas` = 2), the second delete fails — and the reconcile
publishes NOTHING: `UpdateStatefulSet` returns the error without calling
the status writer, contrary to the claim that the partially-mutated
status is still published. -/
theorem driver_error_status_not_published_example :
    (UpdateStatefulSet failSecondCall (mkSet 1 (some 0)) [revR1] s3pods).published = none ∧
    (UpdateStatefulSet failSecondCall (mkSet 1 (some 0)) [revR1] s3pods).err = true ∧
    ((UpdateStatefulSet failSecondCall (mkSet 1 (some 0)) [revR1] s3pods).driver.map Step.actions) =
      some [Action.deleteScaleDown 2 "R1", Action.deleteScaleDown 1 "R1"] ∧
    ((UpdateStatefulSet failSecondCall (mkSet 1 (some 0)) [revR1] s3pods).driver.map
      (fun d => d.status.currentReplicas)) = some 2 := by
  refine ⟨?_, ?_, ?_, ?_⟩ <;> rfl

/-- C4 amended: when a platform call inside the driver fails mid-pass,
the driver hands the partially-mutated status back to `UpdateStatefulSet`,
but the reconcile does NOT publish it: the error propagates upward and
the status writer is only invoked when the driver returns no error. -/
theorem driver_error_skips_status_publish (failAt : Nat → Bool)
    (set : StatefulSet) (revisions : List ControllerRevision) (pods : List Pod)
    (hd : (UpdateStatefulSet failAt set revisions pods).driver.map Step.err = some true) :
    (UpdateStatefulSet failAt set revisions pods).published = none ∧
    (UpdateStatefulSet failAt set revisions pods).err = true := by
  unfold UpdateStatefulSet at hd ⊢
  cases hrr : getStatefulSetRevisions set (sortControllerRevisions revisions) with
  | none => simp [hrr]
  | some rr =>
    simp only [hrr] at hd ⊢
    cases herr : (updateStatefulSet failAt set rr.current rr.update rr.collisionCount pods).err with
    | true => simp [herr]
    | false => simp [herr, Step.err] at hd

/-- C4 witness: the amended theorem applied at the concrete failing
input of the counterexample. -/
theorem driver_error_skips_status_publish_witness :
    (UpdateStatefulSet failSecondCall (mkSet 1 (some 0)) [revR1] s3pods).published = none ∧
    (UpdateStatefulSet failSecondCall (mkSet 1 (some 0)) [revR1] s3pods).err = true :=
  driver_error_skips_status_publish failSecondCall (mkSet 1 (some 0)) [revR1] s3pods (by rfl)

/-- C9: `getStatefulSetRevisions` never indexes out of bounds: the lookup
of the last revision list entry is guarded by `equalCount > 0`, and a
non-empty equivalent-revision list (a filtering of the revision list)
forces the revision list itself to be non-empty, so the checked lookups
always succeed and the function returns a result for every input,
including the empty revision list. -/
theorem getStatefulSetRevisions_never_out_of_bounds (set : StatefulSet)
    (revisions : List ControllerRevision) :
    (getStatefulSetRevisions set revisions).isSome = true := by
  simp only [getStatefulSetRevisions]
  set rs := sortControllerRevisions revisions with hrs
  set cand := newRevision set (nextRevision rs) (set.statusCollisionCount.getD 0) with hcand
  set eqs := FindEqualRevisions rs cand with heqs
  have hlen : rs.length = revisions.length := by
    rw [hrs]; exact List.length_insertionSort revisionLE revisions
  have hfle : eqs.length ≤ rs.length := by
    rw [heqs]; exact List.length_filter_le _ _
  by_cases hpos : 0 < eqs.length
  · have h1 : revisions.length - 1 < rs.length := by omega
    have h2 : eqs.length - 1 < eqs.length := by omega
    rw [if_pos hpos]
    cases hA : rs[revisions.length - 1]? with
    | none =>
      exfalso
      rw [List.getElem?_eq_none_iff] at hA
      omega
    | some lastRev =>
      cases hB : eqs[eqs.length - 1]? with
      | none =>
        exfalso
        rw [List.getElem?_eq_none_iff] at hB
        omega
      | some lastEqual =>
        rfl
  · rw [if_neg hpos]
    rfl

/-- C10: in the rolling-update phase, for a non-terminating pod whose
revision tag differs from the update revision, the `CurrentReplicas`
counter is decremented before the delete call is issued and without
consulting the current revision at all: when the delete call fails, the
phase returns a state whose status already carries the decrement, the
delete recorded among the issued actions, and the error flag set. -/
theorem rolling_update_decrements_current_before_delete
    (failAt : Nat → Bool) (updName : String) (updateMin : Nat) (pods : List Pod)
    (t : Nat) (s : Step) (pod : Pod)
    (hget : pods[t]? = some pod)
    (hmin : ¬ t < updateMin)
    (hrev : getPodRevision pod ≠ updName)
    (hterm : ¬ isTerminating pod = true)
    (hfail : failAt s.calls = true) :
    rollingUpdateAux failAt updName updateMin pods (t + 1) s =
      { status := { s.status with currentReplicas := s.status.currentReplicas - 1 },
        actions := s.actions ++ [Action.deleteForUpdate (getOrdinal pod) (getPodRevision pod)],
        calls := s.calls + 1, err := true } := by
  simp only [rollingUpdateAux, hget]
  rw [if_neg hmin]
  rw [if_pos ⟨hrev, hterm⟩]
  simp [call, hfail]

/-- C10 witness: the theorem applied to a pod at ordinal 5 with revision
tag `R0`, matching neither the update revision `R2` nor any current
revision, starting from a state with `CurrentReplicas` = 0 and a failing
delete: the returned status records `CurrentReplicas` = -1. -/
theorem rolling_update_decrements_current_before_delete_witness :
    rollingUpdateAux (fun _ => true) "R2" 0 [c10pod] 1 c10step =
      { status := { c10step.status with
          currentReplicas := c10step.status.currentReplicas - 1 },
        actions := c10step.actions ++
          [Action.deleteForUpdate (getOrdinal c10pod) (getPodRevision c10pod)],
        calls := c10step.calls + 1, err := true } ∧
    c10step.status.currentReplicas - 1 = -1 :=
  ⟨rolling_update_decrements_current_before_delete (fun _ => true) "R2" 0 [c10pod]
      0 c10step c10pod rfl (by decide) (by decide) (by decide) rfl,
    by decide⟩

/-- C6: rollback detection — for a sorted revision list containing an
entry structurally equivalent to the candidate built from the set's
template while the last entry is not equivalent, `getStatefulSetRevisions`
returns as update revision the greatest-Revision equivalent entry with its
Revision bumped (through the store's update operation) to the candidate's
Revision, and issues no create: the only store operation is the update. -/
theorem rollback_bumps_equivalent_revision
    (set : StatefulSet) (revs : List ControllerRevision)
    (r lastRev : ControllerRevision)
    (hsort : List.Sorted revisionLE revs)
    (hmem : r ∈ revs) (hr : r.template = set.template)
    (hlast : revs.getLast? = some lastRev)
    (hne : lastRev.template ≠ set.template) :
    ∃ rr lastEqual,
      getStatefulSetRevisions set revs = some rr ∧
      (FindEqualRevisions revs
        (newRevision set (nextRevision revs) (set.statusCollisionCount.getD 0))).getLast?
        = some lastEqual ∧
      lastEqual.template = set.template ∧
      rr.update = { lastEqual with revision := nextRevision revs } ∧
      rr.ops = [RevisionOp.update lastEqual.name (nextRevision revs)] := by
  have hss : sortControllerRevisions revs = revs :=
    List.Sorted.insertionSort_eq hsort
  set cand := newRevision set (nextRevision revs) (set.statusCollisionCount.getD 0)
    with hcand
  set eqs := FindEqualRevisions revs cand with heqs
  have hmemEq : r ∈ eqs := by
    rw [heqs]
    exact List.mem_filter.mpr ⟨hmem, by simp [EqualRevision, hcand, newRevision, hr]⟩
  have hnil : eqs ≠ [] := List.ne_nil_of_mem hmemEq
  have hpos : 0 < eqs.length := List.length_pos.mpr hnil
  cases hle : eqs.getLast? with
  | none =>
    exact absurd (List.getLast?_eq_none_iff.mp hle) hnil
  | some lastEqual =>
  have hleMem : lastEqual ∈ eqs := List.mem_of_getLast?_eq_some hle
  have hleT : lastEqual.template = set.template := by
    have hp := (List.mem_filter.mp (heqs ▸ hleMem)).2
    simpa [EqualRevision, hcand, newRevision] using hp
  have hguard : EqualRevision lastRev lastEqual = false := by
    have hneq : lastRev.template ≠ lastEqual.template := by
      rw [hleT]; exact hne
    exact beq_eq_false_iff_ne.mpr hneq
  have hA : revs[revs.length - 1]? = some lastRev :=
    (List.getLast?_eq_getElem? revs).symm.trans hlast
  have hB : eqs[eqs.length - 1]? = some lastEqual :=
    (List.getLast?_eq_getElem? eqs).symm.trans hle
  have hpick : pickUpdateRevision cand lastRev lastEqual =
      ({ lastEqual with revision := cand.revision },
       [RevisionOp.update lastEqual.name cand.revision]) := by
    unfold pickUpdateRevision
    rw [hguard]
    simp
  have hmain : getStatefulSetRevisions set revs =
      some { current := currentFromFound
               (revs.find? (fun q => q.name == set.statusCurrentRevision))
               (pickUpdateRevision cand lastRev lastEqual).1,
             update := (pickUpdateRevision cand lastRev lastEqual).1,
             collisionCount := set.statusCollisionCount.getD 0,
             ops := (pickUpdateRevision cand lastRev lastEqual).2 } := by
    simp only [getStatefulSetRevisions]
    rw [hss]
    rw [← hcand, ← heqs]
    rw [if_pos hpos, hA, hB]
  refine ⟨_, lastEqual, hmain, rfl, hleT, ?_, ?_⟩
  · rw [hpick]
    simp [hcand, newRevision]
  · rw [hpick]
    simp [hcand, newRevision]

/-- C6 witness: the theorem applied to revisions [R1(template A,
Revision 1), R2(template B, Revision 2)] and a set whose template is A:
the update revision is R1 bumped to Revision 3 through the store, with no
create. -/
theorem rollback_bumps_equivalent_revision_witness :
    List.Sorted revisionLE [revR1, revR2] ∧
    (∃ rr lastEqual,
      getStatefulSetRevisions (mkSet 3 (some 0)) [revR1, revR2] = some rr ∧
      (FindEqualRevisions [revR1, revR2]
        (newRevision (mkSet 3 (some 0)) (nextRevision [revR1, revR2])
          ((mkSet 3 (some 0)).statusCollisionCount.getD 0))).getLast?
        = some lastEqual ∧
      lastEqual.template = (mkSet 3 (some 0)).template ∧
      rr.update = { lastEqual with revision := nextRevision [revR1, revR2] } ∧
      rr.ops = [RevisionOp.update lastEqual.name (nextRevision [revR1, revR2])]) :=
  ⟨by decide,
   rollback_bumps_equivalent_revision (mkSet 3 (some 0)) [revR1, revR2] revR1 revR2
     (by decide) (by decide) (by decide) (by decide) (by decide)⟩

/-- C7: history truncation — with the non-live revisions being those named
neither by the current or update marker nor by any observed pod's tag,
the truncator deletes nothing when their count is within the history
limit, and otherwise deletes exactly the first `count - H` of them (for a
sorted input: the lowest-Revision ones, in ascending Revision order, each
deleted record's Revision bounded by every kept one's); afterwards at
most H non-live revisions remain. -/
theorem truncate_history_deletes_lowest_nonlive
    (set : StatefulSet) (pods : List Pod) (revisions : List ControllerRevision)
    (current upd : ControllerRevision)
    (hsort : List.Sorted revisionLE revisions) :
    (truncateHistory set pods revisions current upd =
      if (nonLiveRevisions pods revisions current upd).length ≤ set.revisionHistoryLimit
      then []
      else (nonLiveRevisions pods revisions current upd).take
        ((nonLiveRevisions pods revisions current upd).length - set.revisionHistoryLimit)) ∧
    List.Sorted revisionLE (truncateHistory set pods revisions current upd) ∧
    (∀ d ∈ truncateHistory set pods revisions current upd,
      ∀ k ∈ (nonLiveRevisions pods revisions current upd).drop
        ((nonLiveRevisions pods revisions current upd).length - set.revisionHistoryLimit),
      d.revision ≤ k.revision) ∧
    (nonLiveRevisions pods revisions current upd).length -
      (truncateHistory set pods revisions current upd).length
      ≤ set.revisionHistoryLimit := by
  have hnl : List.Sorted revisionLE (nonLiveRevisions pods revisions current upd) :=
    List.Sorted.filter _ hsort
  set nl := nonLiveRevisions pods revisions current upd with hnldef
  have heq : truncateHistory set pods revisions current upd =
      if nl.length ≤ set.revisionHistoryLimit then []
      else nl.take (nl.length - set.revisionHistoryLimit) := rfl
  by_cases hle : nl.length ≤ set.revisionHistoryLimit
  · rw [heq, if_pos hle]
    refine ⟨rfl, List.sorted_nil, by simp, by simpa using hle⟩
  · rw [heq, if_neg hle]
    have hlim : set.revisionHistoryLimit < nl.length := Nat.lt_of_not_le hle
    have htake : List.Sorted revisionLE
        (nl.take (nl.length - set.revisionHistoryLimit)) :=
      List.Pairwise.sublist (List.take_sublist _ _) hnl
    have hsplit := hnl
    rw [← List.take_append_drop (nl.length - set.revisionHistoryLimit) nl] at hsplit
    have hcross := (List.pairwise_append.mp hsplit).2.2
    have hlen : (nl.take (nl.length - set.revisionHistoryLimit)).length =
        nl.length - set.revisionHistoryLimit := by
      rw [List.length_take]; omega
    exact ⟨rfl, htake, fun d hd k hk => hcross d hd k hk, by omega⟩

/-- C7 witness: the theorem applied to revisions [R1, R2, R3] with
history limit 1, no observed pods and current = update = R1: the
non-live revisions are [R2, R3] and the truncator deletes exactly the
lowest one, R2. -/
theorem truncate_history_deletes_lowest_nonlive_witness :
    List.Sorted revisionLE [revR1, revR2, revR3] ∧
    truncateHistory c7set [] [revR1, revR2, revR3] revR1 revR1 = [revR2] ∧
    (truncateHistory c7set [] [revR1, revR2, revR3] revR1 revR1 =
      if (nonLiveRevisions [] [revR1, revR2, revR3] revR1 revR1).length
          ≤ c7set.revisionHistoryLimit
      then []
      else (nonLiveRevisions [] [revR1, revR2, revR3] revR1 revR1).take
        ((nonLiveRevisions [] [revR1, revR2, revR3] revR1 revR1).length
          - c7set.revisionHistoryLimit)) ∧
    (nonLiveRevisions [] [revR1, revR2, revR3] revR1 revR1).length -
      (truncateHistory c7set [] [revR1, revR2, revR3] revR1 revR1).length
      ≤ c7set.revisionHistoryLimit :=
  ⟨by decide, by decide,
   (truncate_history_deletes_lowest_nonlive c7set [] [revR1, revR2, revR3]
      revR1 revR1 (by decide)).1,
   (truncate_history_deletes_lowest_nonlive c7set [] [revR1, revR2, revR3]
      revR1 revR1 (by decide)).2.2.2⟩

/-- Every action issued by the failed-pod repair step is an event, a
failed-pod delete, or was already present: never a delete-for-update. -/
theorem handleFailedPod_mem (failAt : Nat → Bool) (part : Nat)
    (curName updName : String) (pod : Pod) (s : Step) (a : Action)
    (ha : a ∈ (handleFailedPod failAt part curName updName pod s).2.actions) :
    a ∈ s.actions ∨ notDelUpd a := by
  unfold handleFailedPod at ha
  by_cases hf : isFailed pod = true
  · rw [if_pos hf] at ha
    by_cases hfail : (call failAt
        (addAction s (Action.event "RecreatingFailedPod" (getOrdinal pod)))
        (Action.deleteFailedPod (getOrdinal pod) (getPodRevision pod))).err = true
    · rw [if_pos hfail] at ha
      simp only [call, addAction, List.append_assoc, List.mem_append,
        List.mem_singleton, List.mem_cons, List.not_mem_nil, or_false] at ha
      rcases ha with h | rfl | rfl
      · exact Or.inl h
      · exact Or.inr trivial
      · exact Or.inr trivial
    · rw [if_neg hfail] at ha
      simp only [call, addAction, List.append_assoc, List.mem_append,
        List.mem_singleton, List.mem_cons, List.not_mem_nil, or_false] at ha
      rcases ha with h | rfl | rfl
      · exact Or.inl h
      · exact Or.inr trivial
      · exact Or.inr trivial
  · rw [if_neg hf] at ha
    exact Or.inl ha

/-- Every action issued by Phase 2 (unhealthy-pod repair) is an event, a
failed-pod delete, a create, or an in-place update: never a
delete-for-update. -/
theorem processUnhealthy_mem (failAt : Nat → Bool) (part : Nat)
    (curName updName : String) :
    ∀ (l : List Pod) (s : Step) (a : Action),
      a ∈ (processUnhealthy failAt part curName updName l s).actions →
      a ∈ s.actions ∨ notDelUpd a := by
  intro l
  induction l with
  | nil =>
    intro s a ha
    exact Or.inl ha
  | cons pod rest ih =>
    intro s a ha
    simp only [processUnhealthy] at ha
    rcases hfs : handleFailedPod failAt part curName updName pod s with ⟨pod2, s2⟩
    rw [hfs] at ha
    have hmem2 : ∀ b : Action, b ∈ s2.actions → b ∈ s.actions ∨ notDelUpd b := by
      intro b hb
      exact handleFailedPod_mem failAt part curName updName pod s b (by rw [hfs]; exact hb)
    simp only at ha
    by_cases herr : s2.err = true
    · rw [if_pos herr] at ha
      exact hmem2 a ha
    · rw [if_neg herr] at ha
      by_cases hc : isCreated pod2 = true
      · rw [if_neg (by simp [hc])] at ha
        by_cases him : identityMatches pod2 = true ∧ storageMatches pod2 = true
        · rw [if_pos him] at ha
          rcases ih s2 a ha with h | h
          · exact hmem2 a h
          · exact Or.inr h
        · rw [if_neg him] at ha
          by_cases hfail : (call failAt s2 (Action.updatePod (getOrdinal pod2))).err = true
          · rw [if_pos hfail] at ha
            simp only [call, List.mem_append, List.mem_singleton] at ha
            rcases ha with h | rfl
            · exact hmem2 a h
            · exact Or.inr trivial
          · rw [if_neg hfail] at ha
            rcases ih _ a ha with h | h
            · simp only [call, List.mem_append, List.mem_singleton] at h
              rcases h with h | rfl
              · exact hmem2 a h
              · exact Or.inr trivial
            · exact Or.inr h
      · rw [if_pos (by simp [hc])] at ha
        by_cases hfail : (call failAt s2
            (Action.createPod (getOrdinal pod2) (getPodRevision pod2))).err = true
        · rw [if_pos hfail] at ha
          simp only [call, List.mem_append, List.mem_singleton] at ha
          rcases ha with h | rfl
          · exact hmem2 a h
          · exact Or.inr trivial
        · rw [if_neg hfail] at ha
          rcases ih _ a ha with h | h
          · simp only [call, List.mem_append, List.mem_singleton] at h
            rcases h with h | rfl
            · exact hmem2 a h
            · exact Or.inr trivial
          · exact Or.inr h

/-- Every action issued by Phase 3 (scale down) is a scale-down delete or
was already present: never a delete-for-update. -/
theorem scaleDownAux_mem (failAt : Nat → Bool) (curName updName : String)
    (pods : List Pod) :
    ∀ (t : Nat) (need : Int) (s : Step) (a : Action),
      a ∈ (scaleDownAux failAt curName updName pods t need s).actions →
      a ∈ s.actions ∨ notDelUpd a := by
  intro t
  induction t with
  | zero =>
    intro need s a ha
    exact Or.inl ha
  | succ t ih =>
    intro need s a ha
    simp only [scaleDownAux] at ha
    by_cases hneed : need ≤ 0
    · rw [if_pos hneed] at ha
      exact Or.inl ha
    · rw [if_neg hneed] at ha
      cases hp : pods[t]? with
      | none =>
        rw [hp] at ha
        exact Or.inl ha
      | some pod =>
        rw [hp] at ha
        simp only at ha
        by_cases hterm : isTerminating pod = true
        · rw [if_pos hterm] at ha
          exact ih _ s a ha
        · rw [if_neg hterm] at ha
          by_cases hfail : (call failAt s
              (Action.deleteScaleDown (getOrdinal pod) (getPodRevision pod))).err = true
          · rw [if_pos hfail] at ha
            simp only [call, List.mem_append, List.mem_singleton] at ha
            rcases ha with h | rfl
            · exact Or.inl h
            · exact Or.inr trivial
          · rw [if_neg hfail] at ha
            rcases ih _ _ a ha with h | h
            · simp only [call, List.mem_append, List.mem_singleton] at h
              rcases h with h | rfl
              · exact Or.inl h
              · exact Or.inr trivial
            · exact Or.inr h

/-- Every action issued by Phase 5 (rolling update) and not already
present is a delete-for-update against the pod stored at a list index at
or above the partition floor `updateMin`. -/
theorem rollingUpdateAux_mem (failAt : Nat → Bool) (updName : String)
    (updateMin : Nat) (pods : List Pod) :
    ∀ (t : Nat) (s : Step) (a : Action),
      a ∈ (rollingUpdateAux failAt updName updateMin pods t s).actions →
      a ∈ s.actions ∨ ∃ i pod, updateMin ≤ i ∧ pods[i]? = some pod ∧
        a = Action.deleteForUpdate (getOrdinal pod) (getPodRevision pod) := by
  intro t
  induction t with
  | zero =>
    intro s a ha
    exact Or.inl ha
  | succ t ih =>
    intro s a ha
    simp only [rollingUpdateAux] at ha
    by_cases hmin : t < updateMin
    · rw [if_pos hmin] at ha
      exact Or.inl ha
    · rw [if_neg hmin] at ha
      cases hp : pods[t]? with
      | none =>
        rw [hp] at ha
        exact Or.inl ha
      | some pod =>
        rw [hp] at ha
        simp only at ha
        by_cases hdel : getPodRevision pod ≠ updName ∧ ¬ isTerminating pod = true
        · rw [if_pos hdel] at ha
          by_cases hfail : (call failAt
              { s with status :=
                { s.status with currentReplicas := s.status.currentReplicas - 1 } }
              (Action.deleteForUpdate (getOrdinal pod) (getPodRevision pod))).err = true
          · rw [if_pos hfail] at ha
            simp only [call, List.mem_append, List.mem_singleton] at ha
            rcases ha with h | rfl
            · exact Or.inl h
            · exact Or.inr ⟨t, pod, Nat.le_of_not_lt hmin, hp, rfl⟩
          · rw [if_neg hfail] at ha
            rcases ih _ a ha with h | h
            · simp only [call, List.mem_append, List.mem_singleton] at h
              rcases h with h | rfl
              · exact Or.inl h
              · exact Or.inr ⟨t, pod, Nat.le_of_not_lt hmin, hp, rfl⟩
            · exact Or.inr h
        · rw [if_neg hdel] at ha
          exact ih _ a ha

/-- C8: partition respected — for a rolling-update strategy with
partition P and the driver fed the classifier's dense ordinal-indexed pod
list (the pod stored at index i has ordinal i, modelled from the spec
since the classifier lives outside the embedded source file), no reconcile
pass ever issues a delete-for-update against a replica whose ordinal is
below P: every delete-for-update the pass issues names an ordinal at or
above the partition floor. -/
theorem rolling_update_respects_partition
    (failAt : Nat → Bool) (set : StatefulSet)
    (currentRevision updateRevision : ControllerRevision) (collisionCount : Int)
    (pods : List Pod) (P : Nat) (o : Int) (rev : String)
    (hpart : set.rollingUpdatePartition = some P)
    (hdense : ∀ (i : Nat) (pod : Pod), pods[i]? = some pod → pod.ordinal = (i : Int))
    (hmem : Action.deleteForUpdate o rev ∈
      (updateStatefulSet failAt set currentRevision updateRevision
        collisionCount pods).actions) :
    (P : Int) ≤ o := by
  simp only [updateStatefulSet] at hmem
  split at hmem
  · simp at hmem
  · split at hmem
    · rcases processUnhealthy_mem _ _ _ _ _ _ _ hmem with h | h
      · simp at h
      · exact h.elim
    · split at hmem
      · rcases scaleDownAux_mem _ _ _ _ _ _ _ _ hmem with h | h
        · rcases processUnhealthy_mem _ _ _ _ _ _ _ h with h2 | h2
          · simp at h2
          · exact h2.elim
        · exact h.elim
      · split at hmem
        · rcases scaleDownAux_mem _ _ _ _ _ _ _ _ hmem with h | h
          · rcases processUnhealthy_mem _ _ _ _ _ _ _ h with h2 | h2
            · simp at h2
            · exact h2.elim
          · exact h.elim
        · rcases rollingUpdateAux_mem _ _ _ _ _ _ _ hmem with h | h
          · rcases scaleDownAux_mem _ _ _ _ _ _ _ _ h with h2 | h2
            · rcases processUnhealthy_mem _ _ _ _ _ _ _ h2 with h3 | h3
              · simp at h3
              · exact h3.elim
            · exact h2.elim
          · obtain ⟨i, pod, hiMin, hget, heq⟩ := h
            injection heq with h1 h2
            have hordinal : pod.ordinal = (i : Int) := hdense i pod hget
            have hP : effectivePartition set = P := by
              simp [effectivePartition, hpart]
            rw [hP] at hiMin
            rw [h1, getOrdinal, hordinal]
            omega

/-- C8 witness: the theorem applied to a set with partition 1 and two
observed pods at ordinals 0 and 1 (both at revision R1, update revision
R2): the pass does issue a delete-for-update at ordinal 1, and the
theorem places that ordinal at or above the partition. -/
theorem rolling_update_respects_partition_witness :
    Action.deleteForUpdate 1 "R1" ∈
      (updateStatefulSet noFail (mkSet 2 (some 1)) revR1 revR2 0 pods01).actions ∧
    (1 : Int) ≤ 1 :=
  ⟨by decide,
   rolling_update_respects_partition noFail (mkSet 2 (some 1)) revR1 revR2 0
     pods01 1 1 "R1" rfl
     (by
       intro i pod h
       match i with
       | 0 =>
         simp only [pods01, List.getElem?_cons_zero, Option.some.injEq] at h
         rw [← h]
         rfl
       | 1 =>
         simp only [pods01, List.getElem?_cons_succ, List.getElem?_cons_zero,
           Option.some.injEq] at h
         rw [← h]
         rfl
       | Nat.succ (Nat.succ n) =>
         simp only [pods01, List.getElem?_cons_succ, List.getElem?_nil] at h
         exact Option.noConfusion h)
     (by decide)⟩

end StatefulSetControl
